import Mathlib

/-!
Verification of the polynomial label-vector subsystem of AnniesLasso
(`AnniesLasso/vectorizer/polynomial.py`): the structured-term validator
`_is_structured_label_vector`, the description parser
`parse_label_vector_description`, the builder `build_label_vector`, and the
evaluator `PolynomialVectorizer.get_label_vector`, shallowly embedded as
executable Lean definitions over a model of the Python values involved.
-/

namespace AnniesLasso

/-- Model of a Python float value.  Finite floats are modelled as exact
(unreduced) integer fractions `num / den`; the special values `inf`, `-inf`
and `nan` are separate constructors.  All float values arising in the parser
come from `float(...)` of decimal literals, where IEEE rounding never matters
for the properties proved here (all claim inputs are small integers, on which
IEEE arithmetic is exact). -/
inductive PyFloat where
  | finite (num den : Int)
  | inf
  | ninf
  | nan
deriving DecidableEq, Repr

/-- Model of a Python number as produced by the parser: either an `int`
(for example the default power `1`) or a `float` (the result of `float(...)`).
Python `bool` is modelled separately in `PyVal`. -/
inductive PyNum where
  | int (n : Int)
  | float (f : PyFloat)
deriving DecidableEq, Repr

/-- Addition of modelled floats: exact fraction addition on finite values,
IEEE rules for the special values (`inf + -inf = nan`, `nan` propagates). -/
def floatAdd : PyFloat → PyFloat → PyFloat
  | .nan, _ => .nan
  | _, .nan => .nan
  | .inf, .ninf => .nan
  | .ninf, .inf => .nan
  | .inf, _ => .inf
  | _, .inf => .inf
  | .ninf, _ => .ninf
  | _, .ninf => .ninf
  | .finite a b, .finite c d => .finite (a * d + c * b) (b * d)

/-- View of a Python number as a float (`int` promotes exactly). -/
def PyNum.toFloat : PyNum → PyFloat
  | .int n => .finite n 1
  | .float f => f

/-- Python `+` on numbers: `int + int` stays `int`; any `float` operand makes
the result a `float` (this is the accumulation step
`term[label] = term.get(label, 0) + order` of the parser). -/
def pyAdd : PyNum → PyNum → PyNum
  | .int a, .int b => .int (a + b)
  | a, b => .float (floatAdd a.toFloat b.toFloat)

/-- Python `o != 0` on a parsed power: an `int` is nonzero iff its value is;
a finite float is nonzero iff its numerator is (parser denominators are
positive powers of ten); `inf`, `-inf` and `nan` all compare `!= 0` as true. -/
def pyNeZero : PyNum → Bool
  | .int n => n ≠ 0
  | .float (.finite n _) => n ≠ 0
  | .float _ => true

/-- Python `np.isfinite` on a parsed power. -/
def pyIsFinite : PyNum → Bool
  | .int _ => true
  | .float (.finite _ _) => true
  | .float _ => false

/-- Model of the Python values that can reach
`_is_structured_label_vector` and `parse_label_vector_description`:
strings, ints, floats, bools, lists and tuples. -/
inductive PyVal where
  | str (s : String)
  | int (n : Int)
  | float (f : PyFloat)
  | bool (b : Bool)
  | list (xs : List PyVal)
  | tuple (xs : List PyVal)

/-- Python `isinstance(x, (list, tuple))`, returning the elements when the
value is an ordered sequence. -/
def seqElems : PyVal → Option (List PyVal)
  | .list xs => some xs
  | .tuple xs => some xs
  | _ => none

/-- Python `isinstance(x, (int, float))`.  `True`/`False` pass this check
because Python `bool` is a subtype of `int`. -/
def isIntOrFloatInstance : PyVal → Bool
  | .int _ => true
  | .float _ => true
  | .bool _ => true
  | _ => false

/-- Python `len` of a value already known to be a list or tuple (used for
`sum(map(len, label_vector))` after the element loop has established that
every element is a list or tuple). -/
def pySeqLen (v : PyVal) : Nat := ((seqElems v).getD []).length

/-- One `(label, power)` entry of a structured descriptor, as checked inside
the inner loop of `_is_structured_label_vector`: it must be a list or tuple,
`len(term) == 2` must hold, and `term[-1]` must be an `int` or `float`. -/
def pairObjOk (t : PyVal) : Bool :=
  match seqElems t with
  | some [_, p] => isIntOrFloatInstance p
  | _ => false

/-- One descriptor (term) of a structured label vector, as checked by the
outer loop of `_is_structured_label_vector`: a list or tuple whose entries
all satisfy `pairObjOk`.  An empty descriptor passes this check. -/
def termObjOk (d : PyVal) : Bool :=
  match seqElems d with
  | none => false
  | some ts => ts.all pairObjOk

/-- Function `_is_structured_label_vector(label_vector)` from `polynomial.py`:
`label_vector` must be a list or tuple, every descriptor in it must satisfy
`termObjOk` (otherwise the loop returns `False`), and finally
`len(label_vector) == 0 or sum(map(len, label_vector)) == 0` must be false. -/
def _is_structured_label_vector (label_vector : PyVal) : Bool :=
  match seqElems label_vector with
  | none => false
  | some ds =>
    if ds.all termObjOk then !(ds.isEmpty || (ds.map pySeqLen).sum == 0)
    else false

/-- Whitespace for Python `str.strip()` (the ASCII whitespace characters;
the descriptions handled here contain only spaces and tabs). -/
def isSpaceChar (c : Char) : Bool :=
  c = ' ' || c = '\t' || c = '\n' || c = '\r'

/-- Characters of a string with leading and trailing whitespace removed. -/
def trimChars (cs : List Char) : List Char :=
  ((cs.dropWhile isSpaceChar).reverse.dropWhile isSpaceChar).reverse

/-- Python `str.strip()`. -/
def pyStrip (s : String) : String := String.mk (trimChars s.data)

/-- If `sep` is a prefix of `xs`, return the remainder of `xs` after it. -/
def afterSep : List Char → List Char → Option (List Char)
  | [], xs => some xs
  | _ :: _, [] => none
  | s :: ss, x :: xs => if x = s then afterSep ss xs else none

/-- Worker for splitting on a separator, with fuel (the fuel is always at
least the length of the remaining input plus one, so the fuel-exhausted
branch is never taken for a non-empty separator). -/
def splitCore (sep : List Char) : Nat → List Char → List Char → List (List Char)
  | 0, xs, cur => [cur.reverse ++ xs]
  | _ + 1, [], cur => [cur.reverse]
  | n + 1, x :: xs, cur =>
    match afterSep sep (x :: xs) with
    | some rest => cur.reverse :: splitCore sep n rest []
    | none => splitCore sep n xs (x :: cur)

/-- Python `str.split(sep)` for a non-empty separator: `"".split(sep)` is
`[""]`, separators at the ends produce empty fields. -/
def strSplitOn (sep : String) (s : String) : List String :=
  (splitCore sep.data (s.data.length + 1) s.data []).map String.mk

/-- ASCII lower-casing, for the case-insensitive `inf`/`nan` forms accepted
by Python `float(...)`. -/
def lowerChar (c : Char) : Char :=
  if 65 ≤ c.toNat ∧ c.toNat ≤ 90 then Char.ofNat (c.toNat + 32) else c

/-- Decimal digit test. -/
def isDigitChar (c : Char) : Bool := 48 ≤ c.toNat && c.toNat ≤ 57

/-- Value of a string of decimal digits (the caller checks `isDigitChar`). -/
def natOfDigits (cs : List Char) : Nat :=
  cs.foldl (fun acc c => acc * 10 + (c.toNat - 48)) 0

/-- Integer power `b ^ n` by structural recursion (kernel-reducible). -/
def powInt (b : Int) : Nat → Int
  | 0 => 1
  | n + 1 => b * powInt b n

/-- Mantissa of a decimal literal: digits with at most one decimal point and
at least one digit overall (`"12"`, `"1.5"`, `".5"`, `"1."`).  The result is
the exact fraction (numerator, denominator). -/
def parseMantissa (cs : List Char) : Option (Int × Int) :=
  match splitCore ['.'] (cs.length + 1) cs [] with
  | [ip] =>
    if ip.all isDigitChar && !ip.isEmpty then some (natOfDigits ip, 1) else none
  | [ip, fp] =>
    if ip.all isDigitChar && fp.all isDigitChar && !(ip ++ fp).isEmpty then
      some (natOfDigits (ip ++ fp), powInt 10 fp.length)
    else none
  | _ => none

/-- A decimal exponent part: an optional sign followed by digits. -/
def parseExponent (cs : List Char) : Option Int :=
  let (neg, ds) := match cs with
    | '+' :: r => (false, r)
    | '-' :: r => (true, r)
    | r => (false, r)
  if ds.all isDigitChar && !ds.isEmpty then
    some (if neg then -(natOfDigits ds : Int) else (natOfDigits ds : Int))
  else none

/-- An unsigned decimal literal, with an optional `e`-exponent. -/
def parseDecimal (cs : List Char) : Option (Int × Int) :=
  match splitCore ['e'] (cs.length + 1) cs [] with
  | [m] => parseMantissa m
  | [m, e] =>
    match parseMantissa m, parseExponent e with
    | some (n, d), some k =>
      if 0 ≤ k then some (n * powInt 10 k.toNat, d)
      else some (n, d * powInt 10 (-k).toNat)
    | _, _ => none
  | _ => none

/-- Model of Python `float(s)` on the string forms that can appear as powers
in a label-vector description: surrounding whitespace is ignored, an
optional sign is followed by either a decimal literal or a case-insensitive
`inf`/`infinity`/`nan`.  (Python additionally accepts underscore digit
separators, which no description in this repository uses.)  `none` models
the `ValueError` that `float(...)` raises on any other string. -/
def pyFloatOfString (s : String) : Option PyFloat :=
  let cs := (trimChars s.data).map lowerChar
  let (neg, rest) := match cs with
    | '+' :: r => (false, r)
    | '-' :: r => (true, r)
    | r => (false, r)
  if rest = ['i', 'n', 'f'] || rest = "infinity".data then
    some (if neg then .ninf else .inf)
  else if rest = ['n', 'a', 'n'] then some .nan
  else
    match parseDecimal rest with
    | none => none
    | some (n, d) => some (.finite (if neg then -n else n) d)

/-- Model of the Python exceptions that the embedded functions can raise.
The parser raises `ValueError` both for its two validation failures and for
a failed `list.index` lookup or a failed `float(...)` conversion; iterating
a non-iterable raises `TypeError`; calling `.strip()` on a non-string raises
`AttributeError`; referencing an undefined name raises `NameError`;
indexing an array out of range raises `IndexError`. -/
inductive PyErr where
  | valueError (msg : String)
  | typeError (msg : String)
  | attributeError (msg : String)
  | nameError (msg : String)
  | indexError (msg : String)
deriving DecidableEq, Repr

/-- A resolved label inside a parsed term: the trimmed token itself when no
`columns` were given, or its integer position in `columns`. -/
inductive PyLabel where
  | name (s : String)
  | idx (n : Nat)
deriving DecidableEq, Repr

/-- The Python value a resolved label stands for in the returned structure. -/
def PyLabel.toVal : PyLabel → PyVal
  | .name s => .str s
  | .idx n => .int n

/-- Function `get_label` from the parser: the substring of the factor before the
power operator, stripped; when `columns` is given, the result of
`list(columns).index(...)` on it, which raises `ValueError` when the token
is not an element of `columns`. -/
def get_label (columns : Option (List String)) (pw : String) (d : String)
    : Except PyErr PyLabel :=
  let token := pyStrip ((strSplitOn pw d).headD "")
  match columns with
  | none => .ok (.name token)
  | some cs =>
    match cs.findIdx? (fun c => c = token) with
    | some i => .ok (.idx i)
    | none => .error (.valueError (token ++ " is not in list"))

/-- Function `get_power` from the parser: when the power operator occurs in the
factor, `float` of the stripped substring after its first occurrence
(a conversion failure raises `ValueError`); otherwise the `int` 1. -/
def get_power (pw : String) (t : String) : Except PyErr PyNum :=
  match strSplitOn pw t with
  | [_] => .ok (.int 1)
  | _ :: p :: _ =>
    match pyFloatOfString (pyStrip p) with
    | some f => .ok (.float f)
    | none =>
      .error (.valueError ("could not convert string to float: " ++ pyStrip p))
  | [] => .ok (.int 1)

/-- One factor of a term: the label is resolved first, then the power
(matching the order in which the lazy `zip(labels, orders)` of the source
evaluates `get_label` and `get_power` for each factor). -/
def extractFactor (columns : Option (List String)) (pw : String) (d : String)
    : Except PyErr (PyLabel × PyNum) :=
  match get_label columns pw d with
  | .error e => .error e
  | .ok l =>
    match get_power pw d with
    | .error e => .error e
    | .ok o => .ok (l, o)

/-- Error-propagating map over a list, stopping at the first error (the order
in which the source consumes its factor and descriptor generators). -/
def mapMExcept (f : α → Except PyErr β) : List α → Except PyErr (List β)
  | [] => .ok []
  | x :: xs =>
    match f x with
    | .error e => .error e
    | .ok y =>
      match mapMExcept f xs with
      | .error e => .error e
      | .ok ys => .ok (y :: ys)

/-- One step of the `OrderedDict` accumulation
`term[label] = term.get(label, 0) + order`: an existing key keeps its
position and its power grows by `pyAdd`; a new key is appended at the end
with power `0 + order`. -/
def insertSum : List (PyLabel × PyNum) → PyLabel → PyNum → List (PyLabel × PyNum)
  | [], l, o => [(l, pyAdd (.int 0) o)]
  | (k, p) :: rest, l, o =>
    if k = l then (k, pyAdd p o) :: rest else (k, p) :: insertSum rest l o

/-- The whole `OrderedDict` accumulation loop over the factors of one term. -/
def accumTerm (ps : List (PyLabel × PyNum)) : List (PyLabel × PyNum) :=
  ps.foldl (fun m p => insertSum m p.1 p.2) []

/-- One descriptor of the description: split on the multiplication operator,
resolve every factor, and accumulate repeated labels. -/
def extractDescriptor (columns : Option (List String)) (mul pw : String)
    (item : String) : Except PyErr (List (PyLabel × PyNum)) :=
  match mapMExcept (extractFactor columns pw) (strSplitOn mul item) with
  | .error e => .error e
  | .ok pairs => .ok (accumTerm pairs)

/-- The per-term validation of the parser: keep the factors whose power is
`!= 0` and raise `ValueError` unless all the kept powers are finite. -/
def validateTerm (term : List (PyLabel × PyNum))
    : Except PyErr (List (PyLabel × PyNum)) :=
  let valid := term.filter fun p => pyNeZero p.2
  if !(valid.all fun p => pyIsFinite p.2) then
    .error (.valueError "non-finite power provided")
  else .ok valid

/-- The main loop of the parser over the per-term strings: each descriptor
is extracted, accumulated and validated in turn (so an extraction error in a
later term is raised only after the validation of every earlier term), and
a term whose kept factors are non-empty is appended to the accumulator. -/
def parseTermsAux (columns : Option (List String)) (mul pw : String)
    : List String → List (List (PyLabel × PyNum))
    → Except PyErr (List (List (PyLabel × PyNum)))
  | [], acc => .ok acc
  | item :: rest, acc =>
    match extractDescriptor columns mul pw item with
    | .error e => .error e
    | .ok term =>
      match validateTerm term with
      | .error e => .error e
      | .ok valid =>
        parseTermsAux columns mul pw rest
          (if valid.length > 0 then acc ++ [valid] else acc)

/-- The Python value of a parsed power. -/
def PyNum.toVal : PyNum → PyVal
  | .int n => .int n
  | .float f => .float f

/-- The structured Python value the parser returns: a list of terms, each a
list of `(label, power)` 2-tuples. -/
def structuredOf (lv : List (List (PyLabel × PyNum))) : PyVal :=
  .list (lv.map fun t => .list (t.map fun p => .tuple [p.1.toVal, p.2.toVal]))

/-- The parsing path of `parse_label_vector_description` after the per-term
strings have been produced and stripped: run the main loop, then raise
`ValueError` when `sum(map(len, label_vector)) == 0`, otherwise return the
structured value. -/
def parseFromItems (items : List String) (columns : Option (List String))
    (mul pw : String) : Except PyErr PyVal :=
  match parseTermsAux columns mul pw items [] with
  | .error e => .error e
  | .ok lv =>
    if (lv.map List.length).sum == 0 then
      .error (.valueError "no valid terms provided")
    else .ok (structuredOf lv)

/-- The per-term strings of a description that did not pass the structured
fast path: a string is split on the separator; a list or tuple must consist
of strings (`.strip()` on anything else raises `AttributeError`); any other
value is not iterable and raises `TypeError`. -/
def descItems (description : PyVal) (sep : String)
    : Except PyErr (List String) :=
  match description with
  | .str s => .ok (strSplitOn sep s)
  | .list xs | .tuple xs =>
    mapMExcept (fun v => match v with
      | PyVal.str s => .ok s
      | _ => .error (.attributeError "strip")) xs
  | _ => .error (.typeError "object is not iterable")

/-- Function `parse_label_vector_description(description, columns)` from
`polynomial.py`, with the default operators passed explicitly
(`sep = "+"`, `mul = "*"`, `pw = "^"`): a description that already
satisfies `_is_structured_label_vector` is returned unchanged; otherwise the
description is split into per-term strings, each is stripped, and the
parsing path runs. -/
def parse_label_vector_description (description : PyVal)
    (columns : Option (List String)) (sep mul pw : String)
    : Except PyErr PyVal :=
  if _is_structured_label_vector description then .ok description
  else
    match descItems description sep with
    | .error e => .error e
    | .ok raw => parseFromItems (raw.map pyStrip) columns mul pw

/-- Join a list of strings with a separator (Python `sep.join(items)`). -/
def joinWith (sep : String) : List String → String
  | [] => ""
  | [x] => x
  | x :: xs => x ++ sep ++ joinWith sep xs

/-- Function `build_label_vector(labels, order, cross_term_order)` from
`polynomial.py`, as written: the module imports `Counter` and `OrderedDict`
from `collections` but never imports `combinations_with_replacement`, so the
first iteration of `for o in range(1, 1 + max(order, 1 + cross_term_order))`
raises `NameError`.  The loop body runs iff that range is non-empty; with an
empty range the join of no items returns the empty string. -/
def build_label_vector (labels : List String) (order : Int)
    (cross_term_order : Int) (sep mul pw : String) : Except PyErr String :=
  let _ := labels
  let _ := mul
  let _ := pw
  let cto := if 0 > cross_term_order then order - 1 else cross_term_order
  if 1 ≤ max order (1 + cto) then
    .error (.nameError "name combinations_with_replacement is not defined")
  else .ok (joinWith (" " ++ sep ++ " ") [])

/-- Helper for `cwr`: prepends the head label to every combination drawn
from the whole list, then recurses on the tail (the enumeration order of
`itertools.combinations_with_replacement` on a list of labels). -/
def cwrAux (f : List String → List (List String)) : List String → List (List String)
  | [] => []
  | x :: xs => (f (x :: xs)).map (fun c => x :: c) ++ cwrAux f xs

/-- Model of `itertools.combinations_with_replacement(labels, o)`: all multisets of
size `o` drawn from `labels`, each as a list ordered by the position of its
elements in `labels`, enumerated in lexicographic position order. -/
def cwr : Nat → List String → List (List String)
  | 0, _ => [[]]
  | n + 1, labels => cwrAux (cwr n) labels

/-- Lexicographic comparison of strings by character code points
(Python string `<=`). -/
def lexLe : List Char → List Char → Bool
  | [], _ => true
  | _ :: _, [] => false
  | a :: as, b :: bs =>
    if a.toNat < b.toNat then true
    else if b.toNat < a.toNat then false
    else lexLe as bs

/-- Insert into a lexicographically sorted list of strings. -/
def insertSorted (x : String) : List String → List String
  | [] => [x]
  | y :: ys => if lexLe x.data y.data then x :: y :: ys else y :: insertSorted x ys

/-- Python `sorted` on a list of strings (insertion sort; stability is
irrelevant because the keys sorted in the builder are distinct). -/
def sortStrings (xs : List String) : List String :=
  xs.foldr insertSorted []

/-- Distinct elements of a list in first-seen order (the keys of a
`Counter` built from the list). -/
def dedupGo (seen : List String) : List String → List String
  | [] => []
  | x :: xs =>
    if seen.contains x then dedupGo seen xs
    else x :: dedupGo (x :: seen) xs

/-- Occurrence count of a label in a combination (`Counter` values). -/
def countOcc (combo : List String) (k : String) : Nat :=
  (combo.filter fun x => x = k).length

/-- The builder line `OrderedDict([(k, t[k]) for k in sorted(t.keys())])`: the per-label
counts of a combination, keyed in sorted order. -/
def sortedCounts (combo : List String) : List (String × Nat) :=
  (sortStrings (dedupGo [] combo)).map fun k => (k, countOcc combo k)

/-- The builder line `c = [pow.join([[l], [l, str(p)]][p > 1]) for l, p in t.items()]`: the
rendered factor strings of one accepted combination. -/
def renderFactors (pw : String) (t : List (String × Nat)) : List String :=
  t.map fun p => if 1 < p.2 then p.1 ++ pw ++ toString p.2 else p.1

/-- The builder as documented and specified: `build_label_vector` with the
undefined name `combinations_with_replacement` given its `itertools`
meaning (the import that `polynomial.py` is missing).  For each combination
size `o` from 1 to `max(order, 1 + cross_term_order)` and each multiset of
labels of that size, the sorted per-label counts are computed; a single-label
multiset is kept when `order` is at least its power, a multi-label multiset
when `cross_term_order` is at least its maximum per-label power; each kept
multiset is rendered `label` or `label^power` joined by `mul`, and the terms
are joined by the separator surrounded by spaces. -/
def build_label_vector_intended (labels : List String) (order : Int)
    (cross_term_order : Int) (sep mul pw : String) : String :=
  let cto := if 0 > cross_term_order then order - 1 else cross_term_order
  let m := max order (1 + cto)
  let sizes := if 1 ≤ m then (List.range m.toNat).map (fun i => i + 1) else []
  let items := sizes.flatMap fun o =>
    (cwr o labels).filterMap fun combo =>
      let t := sortedCounts combo
      let mx := (t.map fun p => (p.2 : Int)).foldl max 0
      if (t.length = 1 ∧ mx ≤ order) ∨ (1 < t.length ∧ mx ≤ cto) then
        let c := renderFactors pw t
        if c ≠ [] then some (joinWith mul c) else none
      else none
  joinWith (" " ++ sep ++ " ") items

/-- A float value of the evaluator, modelled as an exact fraction
(see `PyFloat.finite`); the denominator can be zero after a division by a
zero scale, where numpy would produce `inf`/`nan` with a warning — no value
of this kind is ever observable because every evaluation aborts inside the
per-term loop. -/
def QF := Int × Int

/-- The `labels` argument of `get_label_vector`: a single row of `K` label
values or an `N` by `K` batch (`np.array(labels)` of dimension 1 or 2; a
higher-dimensional input raises `ValueError` before anything else and is
outside this model of the argument). -/
inductive NDLabels where
  | one (xs : List QF)
  | two (xss : List (List QF))

/-- A member of the `columns` list of the evaluator: `column = 1.` starts as
a scalar and becomes a row of `N` values at its first in-place
multiplication by a row of `scaled_labels`. -/
inductive Col where
  | scalar (q : QF)
  | arr (xs : List QF)

/-- The scaling step `(value - fiducial) / scale` on exact fractions. -/
def scaleEntry (x f s : QF) : QF :=
  ((x.1 * f.2 - f.1 * x.2) * s.2, x.2 * f.2 * s.1)

/-- The evaluator line `scaled_labels = (labels - self.fiducials)/self.scales` with numpy
broadcasting of the two length-`K` vectors across the `N` rows: every row
must have exactly `K` entries (numpy additionally broadcasts a length-1
operand, a case no caller of this repository exercises; a mismatch raises
`ValueError`). -/
def scaleRows (rows : List (List QF)) (fiducials scales : List QF)
    : Except PyErr (List (List QF)) :=
  if rows.all fun r => r.length = fiducials.length ∧ r.length = scales.length
  then
    .ok (rows.map fun r => (r.zip (fiducials.zip scales)).map
      fun p => scaleEntry p.1 p.2.1 p.2.2)
  else .error (.valueError "operands could not be broadcast together")

/-- Array indexing `scaled_labels[index]`: row indexing of the scaled 2-d array (the source
indexes rows where its comment suggests columns were intended; either way
the loop aborts immediately after).  An out-of-range index raises
`IndexError`; a string label cannot index a numpy float array. -/
def getRow (scaled : List (List QF)) : PyLabel → Except PyErr (List QF)
  | .idx n =>
    match scaled.get? n with
    | some r => .ok r
    | none => .error (.indexError "index out of bounds")
  | .name _ => .error (.typeError "only integers are valid indices")

/-- Exponentiation `x ** order` on one entry, for the integral powers the parser produces
(the only powers any caller constructs; a non-integral or non-finite float
power is modelled as 1, a value that is never observable because the loop
aborts before any column is used). -/
def powEntry (x : QF) (o : PyNum) : QF :=
  match o with
  | .int n => if 0 ≤ n then (powInt x.1 n.toNat, powInt x.2 n.toNat)
              else (powInt x.2 (-n).toNat, powInt x.1 (-n).toNat)
  | .float (.finite n d) =>
    if d = 1 ∧ 0 ≤ n then (powInt x.1 n.toNat, powInt x.2 n.toNat) else (1, 1)
  | .float _ => (1, 1)

/-- The update `column *= scaled_labels[index]**order` (elementwise product once the
column is a row). -/
def colMul (c : Col) (row : List QF) : Col :=
  match c with
  | .scalar q => .arr (row.map fun x => (q.1 * x.1, q.2 * x.2))
  | .arr xs => .arr ((xs.zip row).map fun p => (p.1.1 * p.2.1, p.1.2 * p.2.2))

/-- The inner loop of `get_label_vector` over the factors of one term: the
body computes `column *= scaled_labels[index]**order` and then executes
`raise a` — an unconditional failure (a `NameError`, since no name `a` is in
scope), so the body of the loop never reaches a second factor.  A term with
no factors leaves `column` as the scalar `1.`. -/
def innerLoop (scaled : List (List QF)) (col : Col)
    : List (PyLabel × PyNum) → Except PyErr Col
  | [] => .ok col
  | (index, order) :: _ =>
    match getRow scaled index with
    | .error e => .error e
    | .ok row =>
      let _ := colMul col (row.map fun x => powEntry x order)
      .error (.nameError "name a is not defined")

/-- The outer loop of `get_label_vector` over the parsed terms, appending
each finished column to `columns` (which starts as `[np.ones(N)]`). -/
def outerLoop (scaled : List (List QF)) (cols : List Col)
    : List (List (PyLabel × PyNum)) → Except PyErr (List Col)
  | [] => .ok cols
  | term :: rest =>
    match innerLoop scaled (.scalar (1, 1)) term with
    | .error e => .error e
    | .ok c => outerLoop scaled (cols ++ [c]) rest

/-- Length of a column as `np.vstack` sees it (a scalar stacks as one
entry). -/
def colLen : Col → Nat
  | .scalar _ => 1
  | .arr xs => xs.length

/-- A column as a row of the stacked result. -/
def colRow : Col → List QF
  | .scalar q => [q]
  | .arr xs => xs

/-- Model of `np.vstack(columns)`: every column must stack to the same length
(`columns` is never empty here — it always contains the ones column).
Note the stacking produces a `(1+D, N)` array, the transpose of the
`(N, 1+D)` shape the docstring of `get_label_vector` promises. -/
def vstackCols (cols : List Col) : Except PyErr (List (List QF)) :=
  match cols with
  | [] => .error (.valueError "need at least one array to stack")
  | c :: rest =>
    if rest.all fun x => colLen x = colLen c then .ok ((c :: rest).map colRow)
    else .error (.valueError "all the input array dimensions must match")

/-- The body of `get_label_vector` after the input has been brought to its
2-d `N` by `K` form: scale the rows, run the per-term loop starting from the
ones column, and stack. -/
def get_label_vector_rows (parsed_terms : List (List (PyLabel × PyNum)))
    (fiducials scales : List QF) (rows : List (List QF))
    : Except PyErr (List (List QF)) :=
  match scaleRows rows fiducials scales with
  | .error e => .error e
  | .ok scaled =>
    match outerLoop scaled [.arr (List.replicate rows.length (1, 1))]
        parsed_terms with
    | .error e => .error e
    | .ok cols => vstackCols cols

/-- Method `PolynomialVectorizer.get_label_vector(labels)` from `polynomial.py`,
with the instance attributes (`self._parsed_terms`, `self.fiducials`,
`self.scales`) passed as arguments: a 1-d input is reshaped to one row, the
labels are offset and scaled, and the per-term loop builds the columns —
whose body unconditionally executes `raise a`. -/
def get_label_vector (parsed_terms : List (List (PyLabel × PyNum)))
    (fiducials scales : List QF) (labels : NDLabels)
    : Except PyErr (List (List QF)) :=
  match labels with
  | .one xs => get_label_vector_rows parsed_terms fiducials scales [xs]
  | .two xss => get_label_vector_rows parsed_terms fiducials scales xss

/-! Specification-side predicates, written from the words of the
specification for comparison with the source-derived definitions. -/

/-- Spec wording for one `(label, power)` pair: an ordered sequence of
exactly 2 elements whose power (the last element) is numeric (an integer or
a real; Python booleans are integers). -/
def specPairIs (t : PyVal) : Prop :=
  ∃ l p, seqElems t = some [l, p] ∧ isIntOrFloatInstance p = true

/-- Claim C2 wording for the validator: a non-empty ordered sequence of
terms, each term itself a NON-EMPTY ordered sequence of pairs, each pair of
2 elements with numeric power, and the sum of per-term lengths positive. -/
def specStructuredClaimed (v : PyVal) : Prop :=
  ∃ ds, seqElems v = some ds ∧ ds ≠ [] ∧
    (∀ d ∈ ds, ∃ ts, seqElems d = some ts ∧ ts ≠ [] ∧ ∀ t ∈ ts, specPairIs t) ∧
    0 < (ds.map pySeqLen).sum

/-- The amended wording: as claim C2, except that an individual term is
allowed to be empty — only the outer sequence must be non-empty and the sum
of per-term lengths positive. -/
def specStructuredAmended (v : PyVal) : Prop :=
  ∃ ds, seqElems v = some ds ∧ ds ≠ [] ∧
    (∀ d ∈ ds, ∃ ts, seqElems d = some ts ∧ ∀ t ∈ ts, specPairIs t) ∧
    0 < (ds.map pySeqLen).sum

/-- A returned power that is non-zero and finite (claim C9 wording), on the
Python value inside the returned structure. -/
def goodPowerVal : PyVal → Bool
  | .int n => n ≠ 0
  | .float (.finite n _) => n ≠ 0
  | _ => false

/-- A returned `(label, power)` pair whose power is non-zero and finite. -/
def goodPairVal : PyVal → Bool
  | .tuple [_, pv] => goodPowerVal pv
  | _ => false

/-- A returned term that is a non-empty sequence of good pairs. -/
def goodTermVal : PyVal → Bool
  | .list ps => !ps.isEmpty && ps.all goodPairVal
  | _ => false

/-- Claim C9 wording for a value returned by the parsing path: a list of
terms, every term non-empty, every power non-zero and finite. -/
def goodVector : PyVal → Bool
  | .list ds => ds.all goodTermVal
  | _ => false

/-! Helper lemmas. -/

/-- Adding a parsed power to the fresh `term.get(label, 0)` returns that
power unchanged (including the special float values). -/
theorem pyAdd_zero (o : PyNum) : pyAdd (.int 0) o = o := by
  cases o with
  | int n => simp [pyAdd]
  | float f =>
    cases f with
    | finite a b =>
      simp [pyAdd, PyNum.toFloat, floatAdd, Int.zero_mul, Int.mul_one,
        Int.zero_add, Int.one_mul]
    | inf => rfl
    | ninf => rfl
    | nan => rfl

/-- Folding factors that all carry the same label into a one-entry ordered
dictionary sums the powers. -/
theorem foldl_insertSum_single (os : List PyNum) (l : PyLabel) (acc : PyNum) :
    List.foldl (fun m p => insertSum m p.1 p.2) [(l, acc)]
      (os.map fun x => (l, x)) = [(l, List.foldl pyAdd acc os)] := by
  induction os generalizing acc with
  | nil => rfl
  | cons o os ih => simpa [insertSum] using ih (pyAdd acc o)

/-- Inversion of the per-term validation: on success the kept factors are
the non-zero-power ones and all their powers are finite. -/
theorem validateTerm_ok {term valid : List (PyLabel × PyNum)}
    (h : validateTerm term = .ok valid) :
    valid = term.filter (fun p => pyNeZero p.2) ∧
      valid.all (fun p => pyIsFinite p.2) = true := by
  unfold validateTerm at h
  by_cases hfin :
      ((term.filter fun p => pyNeZero p.2).all fun p => pyIsFinite p.2) = true
  · simp [hfin] at h
    exact ⟨h.symm, h ▸ hfin⟩
  · simp [hfin] at h

/-- Inversion of the parsing path: success means the main loop succeeded,
the total number of kept factors is positive, and the result is the
structured form of the loop output. -/
theorem parseFromItems_ok {items : List String} {cols : Option (List String)}
    {mul pw : String} {v : PyVal}
    (h : parseFromItems items cols mul pw = .ok v) :
    ∃ lv, parseTermsAux cols mul pw items [] = .ok lv ∧
      (lv.map List.length).sum ≠ 0 ∧ v = structuredOf lv := by
  unfold parseFromItems at h
  cases hp : parseTermsAux cols mul pw items [] with
  | error e => rw [hp] at h; exact absurd h (by simp)
  | ok lv =>
    rw [hp] at h
    by_cases hs : (lv.map List.length).sum = 0
    · simp [hs] at h
    · refine ⟨lv, rfl, hs, ?_⟩
      simpa [hs] using h.symm

/-- The structured form of a loop output with at least one factor satisfies
the structured-vector validator. -/
theorem validator_structuredOf {lv : List (List (PyLabel × PyNum))}
    (h : (lv.map List.length).sum ≠ 0) :
    _is_structured_label_vector (structuredOf lv) = true := by
  have hall : (lv.map fun t =>
      PyVal.list (t.map fun p => PyVal.tuple [p.1.toVal, p.2.toVal])).all
        termObjOk = true := by
    rw [List.all_eq_true]
    intro d hd
    rcases List.mem_map.mp hd with ⟨t, _, rfl⟩
    simp only [termObjOk, seqElems, List.all_eq_true]
    intro x hx
    rcases List.mem_map.mp hx with ⟨p, _, rfl⟩
    cases hpn : p.2 with
    | int n => simp [pairObjOk, seqElems, PyNum.toVal, isIntOrFloatInstance]
    | float f => simp [pairObjOk, seqElems, PyNum.toVal, isIntOrFloatInstance]
  have hlen : ((lv.map fun t =>
      PyVal.list (t.map fun p => PyVal.tuple [p.1.toVal, p.2.toVal])).map
        pySeqLen) = lv.map List.length := by
    rw [List.map_map]
    refine List.map_congr_left fun t _ => ?_
    simp [pySeqLen, seqElems]
  have hne : lv ≠ [] := by
    rintro rfl
    exact h rfl
  simp only [_is_structured_label_vector, structuredOf, seqElems, hall,
    if_true, hlen]
  simp [List.isEmpty_eq_true, hne, h]

/-- Dropping the empty terms does not change the total factor count. -/
theorem sum_filter_pos (ls : List (List (PyLabel × PyNum))) :
    (((ls.filter fun t => decide (0 < t.length))).map List.length).sum =
      (ls.map List.length).sum := by
  induction ls with
  | nil => rfl
  | cons t ts ih =>
    by_cases ht : 0 < t.length
    · simp [List.filter_cons, ht, ih]
    · have : t.length = 0 := Nat.eq_zero_of_not_pos ht
      simp [List.filter_cons, ht, ih, this]

/-- Invariant carried by the main parser loop: every accumulated term is
non-empty and all its powers are non-zero and finite. -/
def termsInv (lv : List (List (PyLabel × PyNum))) : Prop :=
  ∀ t ∈ lv, t ≠ [] ∧ ∀ p ∈ t, pyNeZero p.2 = true ∧ pyIsFinite p.2 = true

/-- The main parser loop preserves `termsInv`. -/
theorem parseTermsAux_inv {cols : Option (List String)} {mul pw : String} :
    ∀ {items : List String} {acc lv : List (List (PyLabel × PyNum))},
    parseTermsAux cols mul pw items acc = .ok lv → termsInv acc → termsInv lv := by
  intro items
  induction items with
  | nil =>
    intro acc lv h hacc
    simp only [parseTermsAux] at h
    cases h
    exact hacc
  | cons item rest ih =>
    intro acc lv h hacc
    simp only [parseTermsAux] at h
    cases hx : extractDescriptor cols mul pw item with
    | error e => simp only [hx] at h; exact absurd h (by simp)
    | ok term =>
      simp only [hx] at h
      cases hv : validateTerm term with
      | error e => simp only [hv] at h; exact absurd h (by simp)
      | ok valid =>
        simp only [hv] at h
        rcases validateTerm_ok hv with ⟨hfil, hfin⟩
        refine ih h ?_
        by_cases hlen : valid.length > 0
        · rw [if_pos hlen] at h ⊢
          intro t ht
          rcases List.mem_append.mp ht with hta | htv
          · exact hacc t hta
          · have : t = valid := by simpa using htv
            subst this
            refine ⟨?_, ?_⟩
            · intro hnil
              rw [hnil] at hlen
              exact absurd hlen (by simp)
            · intro p hp
              constructor
              · have := hfil ▸ hp
                exact (List.mem_filter.mp this).2
              · exact (List.all_eq_true.mp hfin) p hp
        · rw [if_neg hlen] at h ⊢
          exact hacc

/-- A value satisfying `termsInv` maps to a structured value satisfying the
claim C9 shape predicate. -/
theorem goodVector_structuredOf {lv : List (List (PyLabel × PyNum))}
    (h : termsInv lv) : goodVector (structuredOf lv) = true := by
  simp only [goodVector, structuredOf, List.all_eq_true]
  intro d hd
  rcases List.mem_map.mp hd with ⟨t, htlv, rfl⟩
  rcases h t htlv with ⟨hne, hps⟩
  simp only [goodTermVal, Bool.and_eq_true, List.all_eq_true]
  constructor
  · cases t with
    | nil => exact absurd rfl hne
    | cons a as => simp
  · intro x hx
    rcases List.mem_map.mp hx with ⟨p, hpt, rfl⟩
    rcases hps p hpt with ⟨hnz, hfin⟩
    cases hp2 : p.2 with
    | int n =>
      rw [hp2] at hnz
      simpa [goodPairVal, goodPowerVal, PyNum.toVal, pyNeZero] using hnz
    | float f =>
      cases f with
      | finite a b =>
        rw [hp2] at hnz
        simpa [goodPairVal, goodPowerVal, PyNum.toVal, pyNeZero] using hnz
      | inf => rw [hp2] at hfin; simp [pyIsFinite] at hfin
      | ninf => rw [hp2] at hfin; simp [pyIsFinite] at hfin
      | nan => rw [hp2] at hfin; simp [pyIsFinite] at hfin

/-- When every descriptor extracts cleanly, the main parser loop is the
composition of per-term filtering, the finiteness check, and dropping of
emptied terms. -/
theorem parseTermsAux_of_extract {cols : Option (List String)}
    {mul pw : String} :
    ∀ {items : List String} {agg : List (List (PyLabel × PyNum))}
    (acc : List (List (PyLabel × PyNum))),
    mapMExcept (extractDescriptor cols mul pw) items = .ok agg →
    parseTermsAux cols mul pw items acc =
      if agg.any (fun t => (t.filter fun p => pyNeZero p.2).any
          fun p => !pyIsFinite p.2) then
        .error (.valueError "non-finite power provided")
      else
        .ok (acc ++ ((agg.map fun t => t.filter fun p => pyNeZero p.2).filter
          fun t => decide (0 < t.length))) := by
  intro items
  induction items with
  | nil =>
    intro agg acc h
    simp only [mapMExcept] at h
    cases h
    simp [parseTermsAux]
  | cons item rest ih =>
    intro agg acc h
    simp only [mapMExcept] at h
    cases hx : extractDescriptor cols mul pw item with
    | error e => rw [hx] at h; exact absurd h (by simp)
    | ok term =>
      rw [hx] at h
      cases hr : mapMExcept (extractDescriptor cols mul pw) rest with
      | error e => rw [hr] at h; exact absurd h (by simp)
      | ok agg2 =>
        rw [hr] at h
        cases h
        simp only [parseTermsAux, hx]
        by_cases hfin : ((term.filter fun p => pyNeZero p.2).all
            fun p => pyIsFinite p.2) = true
        · have hbad : ((term.filter fun p => pyNeZero p.2).any
              fun p => !pyIsFinite p.2) = false := by
            rw [Bool.eq_false_iff]
            intro hany
            rcases List.any_eq_true.mp hany with ⟨p, hp, hnp⟩
            have := List.all_eq_true.mp hfin p hp
            rw [this] at hnp
            exact absurd hnp (by simp)
          have hvt : validateTerm term = .ok (term.filter fun p => pyNeZero p.2) := by
            simp [validateTerm, hfin]
          simp only [hvt]
          rw [ih _ hr]
          simp only [List.any_cons, hbad, Bool.false_or, List.map_cons,
            List.filter_cons]
          by_cases hlen : 0 < (term.filter fun p => pyNeZero p.2).length
          · simp [hlen, List.append_assoc]
          · simp [hlen]
        · have hvt : validateTerm term =
              .error (.valueError "non-finite power provided") := by
            simp [validateTerm, hfin]
          simp only [hvt]
          have hbad : ((term.filter fun p => pyNeZero p.2).any
              fun p => !pyIsFinite p.2) = true := by
            cases hA : (term.filter fun p => pyNeZero p.2).any
                fun p => !pyIsFinite p.2 with
            | false =>
              exfalso
              apply hfin
              rw [List.all_eq_true]
              intro p hp
              have := List.any_eq_false.mp hA p hp
              simpa using this
            | true => rfl
          rw [List.any_cons, hbad]
          simp

/-- The outer loop of the evaluator fails on every batch as soon as the
parsed terms contain at least one factor: the first factor of the first
non-empty term either fails its row indexing or reaches the unconditional
`raise a`. -/
theorem outerLoop_err (scaled : List (List QF)) :
    ∀ (terms : List (List (PyLabel × PyNum))) (cols : List Col),
    0 < (terms.map List.length).sum →
    ∃ e, outerLoop scaled cols terms = .error e := by
  intro terms
  induction terms with
  | nil => intro cols h; simp at h
  | cons t rest ih =>
    intro cols h
    cases t with
    | nil =>
      simp only [outerLoop, innerLoop]
      apply ih
      simpa using h
    | cons f fs =>
      rcases f with ⟨index, order⟩
      cases hg : getRow scaled index with
      | error e => exact ⟨e, by simp only [outerLoop, innerLoop, hg]⟩
      | ok row =>
        exact ⟨.nameError "name a is not defined",
          by simp only [outerLoop, innerLoop, hg]⟩

/-- The per-pair shape check of the validator agrees with the spec wording
for a `(label, power)` pair. -/
theorem pairObjOk_iff (t : PyVal) : pairObjOk t = true ↔ specPairIs t := by
  cases ht : seqElems t with
  | none => simp [pairObjOk, ht, specPairIs]
  | some ps =>
    rcases ps with _ | ⟨a, _ | ⟨b, _ | ⟨c, rest⟩⟩⟩
    · simp [pairObjOk, ht, specPairIs]
    · simp [pairObjOk, ht, specPairIs]
    · simp only [pairObjOk, ht, specPairIs, Option.some.injEq, List.cons.injEq,
        and_true]
      exact ⟨fun hb => ⟨a, b, ⟨rfl, rfl⟩, hb⟩,
        by rintro ⟨l, p, ⟨rfl, rfl⟩, hp⟩; exact hp⟩
    · simp [pairObjOk, ht, specPairIs]

/-- The per-term shape check of the validator agrees with the spec wording
minus the per-term non-emptiness requirement. -/
theorem termObjOk_iff (d : PyVal) :
    termObjOk d = true ↔ ∃ ts, seqElems d = some ts ∧ ∀ t ∈ ts, specPairIs t := by
  cases hd : seqElems d with
  | none => simp [termObjOk, hd]
  | some ts => simp [termObjOk, hd, List.all_eq_true, pairObjOk_iff]

/-! The claims. -/

/-- Claim C1 (code bug in `build_label_vector`): as written,
`build_label_vector(["Teff","logg"], 2, 1)` raises `NameError` because
`combinations_with_replacement` is used without being imported, so its
output can never be fed back into the parser; with the missing import
supplied (the documented intent), the builder produces exactly
`"Teff + logg + Teff^2 + Teff*logg + logg^2"`, which parses with
`columns=["Teff","logg"]` into exactly the five claimed terms — `Teff`,
`logg`, `Teff^2`, `Teff*logg`, `logg^2` — with no duplicate and no
disallowed term. -/
theorem claim_C1_builder_round_trip :
    build_label_vector ["Teff", "logg"] 2 1 "+" "*" "^" =
      .error (.nameError "name combinations_with_replacement is not defined") ∧
    build_label_vector_intended ["Teff", "logg"] 2 1 "+" "*" "^" =
      "Teff + logg + Teff^2 + Teff*logg + logg^2" ∧
    parse_label_vector_description
      (.str (build_label_vector_intended ["Teff", "logg"] 2 1 "+" "*" "^"))
      (some ["Teff", "logg"]) "+" "*" "^" =
      .ok (.list [.list [.tuple [.int 0, .int 1]],
                  .list [.tuple [.int 1, .int 1]],
                  .list [.tuple [.int 0, .float (.finite 2 1)]],
                  .list [.tuple [.int 0, .int 1], .tuple [.int 1, .int 1]],
                  .list [.tuple [.int 1, .float (.finite 2 1)]]]) :=
  ⟨rfl, rfl, rfl⟩

/-- Claim C2 counterexample: the validator accepts
`[[], [("a", 1)]]` — a structured vector with an EMPTY first term — while
the claim, which requires every term to be a non-empty sequence of pairs,
says it must be rejected. -/
theorem claim_C2_counterexample :
    _is_structured_label_vector
        (.list [.list [], .list [.tuple [.str "a", .int 1]]]) = true ∧
    ¬ specStructuredClaimed
        (.list [.list [], .list [.tuple [.str "a", .int 1]]]) := by
  refine ⟨rfl, ?_⟩
  rintro ⟨ds, hds, -, hall, -⟩
  have hds2 : ds = [PyVal.list [], PyVal.list [.tuple [.str "a", .int 1]]] := by
    simpa [seqElems] using hds.symm
  subst hds2
  rcases hall (PyVal.list []) (by simp) with ⟨ts, hts, htne, -⟩
  have : ts = [] := by simpa [seqElems] using hts.symm
  exact htne this

/-- Claim C2 (amended): `_is_structured_label_vector(x)` returns true iff
`x` is a non-empty ordered sequence of terms, where each term is an ordered
sequence (possibly empty) of `(label, power)` pairs, each pair has exactly
2 elements with a numeric power, and the sum of per-term lengths is
positive; being a total boolean function of the value, it never raises. -/
theorem claim_C2_validator_characterization (v : PyVal) :
    _is_structured_label_vector v = true ↔ specStructuredAmended v := by
  cases hv : seqElems v with
  | none =>
    simp only [_is_structured_label_vector, hv, specStructuredAmended]
    simp
  | some ds =>
    simp only [_is_structured_label_vector, hv, specStructuredAmended]
    constructor
    · intro h
      by_cases hall : ds.all termObjOk = true
      · rw [if_pos hall] at h
        simp only [Bool.not_eq_true', Bool.or_eq_false_iff] at h
        refine ⟨ds, rfl, ?_, ?_, ?_⟩
        · intro hnil
          rw [hnil] at h
          exact absurd h.1 (by simp)
        · intro d hd
          exact (termObjOk_iff d).mp (List.all_eq_true.mp hall d hd)
        · have h2 := h.2
          rw [beq_eq_false_iff_ne] at h2
          exact Nat.pos_of_ne_zero h2
      · rw [if_neg hall] at h
        exact absurd h (by simp)
    · rintro ⟨ds2, hds2, hne, hall, hsum⟩
      have hds : ds2 = ds := (Option.some.inj hds2).symm
      subst hds
      have hallb : ds2.all termObjOk = true := by
        rw [List.all_eq_true]
        intro d hd
        exact (termObjOk_iff d).mpr (hall d hd)
      rw [if_pos hallb]
      simp only [Bool.not_eq_true', Bool.or_eq_false_iff]
      constructor
      · cases ds2 with
        | nil => exact absurd rfl hne
        | cons a as => simp
      · simpa using Nat.pos_iff_ne_zero.mp hsum

/-- Claim C3: every evaluation of `get_label_vector` fails rather than
returning a matrix, on every 1-d or 2-d label input, as long as the parsed
terms contain at least one factor (which the parser guarantees): the body
of the per-term loop ends in an unconditional `raise`. -/
theorem claim_C3_get_label_vector_always_fails
    (parsed_terms : List (List (PyLabel × PyNum)))
    (fiducials scales : List QF) (labels : NDLabels)
    (h : 0 < (parsed_terms.map List.length).sum) :
    ∃ e, get_label_vector parsed_terms fiducials scales labels = .error e := by
  have core : ∀ rows : List (List QF),
      ∃ e, get_label_vector_rows parsed_terms fiducials scales rows =
        .error e := by
    intro rows
    cases hs : scaleRows rows fiducials scales with
    | error e => exact ⟨e, by simp only [get_label_vector_rows, hs]⟩
    | ok scaled =>
      rcases outerLoop_err scaled parsed_terms
        [.arr (List.replicate rows.length (1, 1))] h with ⟨e, he⟩
      exact ⟨e, by simp only [get_label_vector_rows, hs, he]⟩
  cases labels with
  | one xs => exact core [xs]
  | two xss => exact core xss

/-- Witness for claim C3: a concrete one-row evaluation with one parsed
term fails. -/
theorem claim_C3_get_label_vector_always_fails_witness :
    ∃ e, get_label_vector [[(.idx 0, .int 1)]] [(0, 1)] [(1, 1)]
      (.one [(2, 1)]) = .error e :=
  claim_C3_get_label_vector_always_fails [[(.idx 0, .int 1)]] [(0, 1)] [(1, 1)]
    (.one [(2, 1)]) (by decide)

/-- Claim C4 (code bug in `get_label_vector`): at the claimed concrete
input — K=2 labels, zero fiducials, unit scales, a single row, one parsed
term — the evaluator does not return the promised `(1, 1+D)` matrix with
ones in column 0: it raises `NameError` from the unconditional `raise a`
inside the per-term loop, contradicting its own docstring. -/
theorem claim_C4_evaluator_raise_at_concrete_input :
    get_label_vector [[(.idx 0, .int 1)]] [(0, 1), (0, 1)] [(1, 1), (1, 1)]
      (.one [(1, 1), (2, 1)]) = .error (.nameError "name a is not defined") := rfl

/-- Claim C5: parsing is idempotent — whenever
`parse_label_vector_description` succeeds, feeding its result back in (with
the same columns and operators) returns it unchanged via the structured
fast path. -/
theorem claim_C5_parse_idempotent (d : PyVal) (cols : Option (List String))
    (v : PyVal)
    (h : parse_label_vector_description d cols "+" "*" "^" = .ok v) :
    parse_label_vector_description v cols "+" "*" "^" = .ok v := by
  unfold parse_label_vector_description at h
  by_cases hv : _is_structured_label_vector d = true
  · rw [if_pos hv] at h
    have hd : v = d := (Except.ok.inj h).symm
    subst hd
    unfold parse_label_vector_description
    rw [if_pos hv]
  · rw [if_neg hv] at h
    cases hd : descItems d "+" with
    | error e => simp only [hd] at h; exact absurd h (by simp)
    | ok raw =>
      simp only [hd] at h
      rcases parseFromItems_ok h with ⟨lv, _, hsum, rfl⟩
      unfold parse_label_vector_description
      rw [if_pos (validator_structuredOf hsum)]

/-- Witness for claim C5: the parse of `"Teff^2"` succeeds and its result
parses to itself. -/
theorem claim_C5_parse_idempotent_witness :
    parse_label_vector_description
      (.list [.list [.tuple [.str "Teff", .float (.finite 2 1)]]]) none
      "+" "*" "^" =
      .ok (.list [.list [.tuple [.str "Teff", .float (.finite 2 1)]]]) :=
  claim_C5_parse_idempotent (.str "Teff^2") none _ rfl

/-- Claim C6: within one term, factors sharing the same resolved label have
their powers summed in first-seen order (a whole term of factors on one
label collapses to a single factor carrying the folded sum), and aggregated
factors whose summed power is zero are dropped: `"feh^0*feh^2"` parses to
the single factor `(feh, 2.0)` (a float equal to 2), `"feh^0*Teff"` parses
to exactly `[(Teff, 1)]`, and `"logg*Teff*logg"` parses to
`[(logg, 2), (Teff, 1)]`. -/
theorem claim_C6_repeated_factor_summation :
    (∀ (l : PyLabel) (o : PyNum) (os : List PyNum),
      accumTerm ((o :: os).map fun x => (l, x)) = [(l, os.foldl pyAdd o)]) ∧
    parse_label_vector_description (.str "feh^0*feh^2") none "+" "*" "^" =
      .ok (.list [.list [.tuple [.str "feh", .float (.finite 2 1)]]]) ∧
    parse_label_vector_description (.str "feh^0*Teff") none "+" "*" "^" =
      .ok (.list [.list [.tuple [.str "Teff", .int 1]]]) ∧
    parse_label_vector_description (.str "logg*Teff*logg") none "+" "*" "^" =
      .ok (.list [.list [.tuple [.str "logg", .int 2],
                         .tuple [.str "Teff", .int 1]]]) := by
  refine ⟨?_, rfl, rfl, rfl⟩
  intro l o os
  simp only [accumTerm, List.map_cons, List.foldl_cons, insertSum, pyAdd_zero]
  exact foldl_insertSum_single os l o

/-- Claim C7: on the parsing path (every string description takes it), the
parser raises the `"non-finite power provided"` validation error exactly
when some term retains a non-finite power, then the
`"no valid terms provided"` validation error exactly when the retained
factor count is zero, and otherwise returns the structured vector with
neither error. -/
theorem claim_C7_parse_validation_errors :
    (∀ (s : String) (cols : Option (List String)),
      parse_label_vector_description (.str s) cols "+" "*" "^" =
        parseFromItems ((strSplitOn "+" s).map pyStrip) cols "*" "^") ∧
    (∀ (items : List String) (cols : Option (List String))
      (agg : List (List (PyLabel × PyNum))),
      mapMExcept (extractDescriptor cols "*" "^") items = .ok agg →
      parseFromItems items cols "*" "^" =
        if agg.any (fun t => (t.filter fun p => pyNeZero p.2).any
            fun p => !pyIsFinite p.2) then
          .error (.valueError "non-finite power provided")
        else if ((agg.map fun t => t.filter fun p => pyNeZero p.2).map
            List.length).sum == 0 then
          .error (.valueError "no valid terms provided")
        else
          .ok (structuredOf
            ((agg.map fun t => t.filter fun p => pyNeZero p.2).filter
              fun t => decide (0 < t.length)))) := by
  constructor
  · intro s cols
    rfl
  · intro items cols agg h
    unfold parseFromItems
    rw [parseTermsAux_of_extract [] h]
    by_cases hbad : (agg.any (fun t => (t.filter fun p => pyNeZero p.2).any
        fun p => !pyIsFinite p.2)) = true
    · rw [if_pos hbad, if_pos hbad]
    · simp only [hbad, Bool.false_eq_true, if_false, List.nil_append,
        sum_filter_pos]

/-- Witness for claim C7: a clean one-term description extracts and the
characterization evaluates on it. -/
theorem claim_C7_parse_validation_errors_witness :
    parseFromItems ["Teff^2"] none "*" "^" =
      .ok (structuredOf [[(.name "Teff", .float (.finite 2 1))]]) := by
  have h := claim_C7_parse_validation_errors.2 ["Teff^2"] none
    [[(.name "Teff", .float (.finite 2 1))]] rfl
  exact h.trans (by rfl)

/-- Claim C8: with `columns` provided, label tokens resolve to their integer
positions by exact match on the trimmed token — `"logg*Teff^3"` with
`columns=["Teff","logg","feh"]` parses to `[[(1,1),(0,3)]]`, also with
whitespace around the tokens — and an unknown token such as `"bogus^2"`
fails with the lookup error of `list.index`. -/
theorem claim_C8_label_resolution :
    parse_label_vector_description (.str "logg*Teff^3")
      (some ["Teff", "logg", "feh"]) "+" "*" "^" =
      .ok (.list [.list [.tuple [.int 1, .int 1],
                         .tuple [.int 0, .float (.finite 3 1)]]]) ∧
    parse_label_vector_description (.str " logg * Teff ^ 3 ")
      (some ["Teff", "logg", "feh"]) "+" "*" "^" =
      .ok (.list [.list [.tuple [.int 1, .int 1],
                         .tuple [.int 0, .float (.finite 3 1)]]]) ∧
    parse_label_vector_description (.str "bogus^2")
      (some ["Teff", "logg", "feh"]) "+" "*" "^" =
      .error (.valueError "bogus is not in list") :=
  ⟨rfl, rfl, rfl⟩

/-- Claim C9 (implicit invariant): whenever a string description parses
successfully (strings never take the structured fast path), every term of
the returned vector is non-empty and every returned power is non-zero and
finite. -/
theorem claim_C9_parse_output_invariant (s : String)
    (cols : Option (List String)) (v : PyVal)
    (h : parse_label_vector_description (.str s) cols "+" "*" "^" = .ok v) :
    goodVector v = true := by
  have h2 : parseFromItems ((strSplitOn "+" s).map pyStrip) cols "*" "^" =
      .ok v := h
  rcases parseFromItems_ok h2 with ⟨lv, hloop, hsum, rfl⟩
  refine goodVector_structuredOf (parseTermsAux_inv hloop ?_)
  intro t ht
  exact absurd ht (List.not_mem_nil t)

/-- Witness for claim C9 at the parse of `"Teff^2"`. -/
theorem claim_C9_parse_output_invariant_witness :
    goodVector (.list [.list [.tuple [.str "Teff", .float (.finite 2 1)]]]) =
      true :=
  claim_C9_parse_output_invariant "Teff^2" none _ rfl

/-- Claim C10: an empty or whitespace-only description with no columns does
not fail — the single stripped term is the empty string, its factor has no
power operator and so defaults to the `int` power 1, which is retained, and
the parser returns `[[("", 1)]]`. -/
theorem claim_C10_empty_description :
    parse_label_vector_description (.str "") none "+" "*" "^" =
      .ok (.list [.list [.tuple [.str "", .int 1]]]) ∧
    parse_label_vector_description (.str "   ") none "+" "*" "^" =
      .ok (.list [.list [.tuple [.str "", .int 1]]]) ∧
    parse_label_vector_description (.str " \t ") none "+" "*" "^" =
      .ok (.list [.list [.tuple [.str "", .int 1]]]) :=
  ⟨rfl, rfl, rfl⟩

end AnniesLasso
